import Mathlib

/-!
Verification development for the ayon-backend entity core: the task entity
loader and saver (`openpype/entities/task.py`), the schema model set
(`ayon_server/entities/models/__init__.py`), the anatomy-to-project transform
(`ayon_server/helpers/deploy_project.py`) and the activity reference extractor
(`ayon_server/activities/references.py`), shallowly embedded in Lean 4.

Python `dict` objects are embedded as association lists with string keys,
with insertion (`dictInsert`) replacing in place when the key exists and
appending otherwise, and `|=` (`dunion`) folding insertions left to right,
matching CPython's ordered-dict semantics.
-/

namespace Ayon

/-- A JSON-ish scalar value stored in an attribute bag. -/
inductive AttrVal : Type
  | avInt (n : Int)
  | avStr (s : String)
  | avBool (b : Bool)
  | avList (xs : List String)
deriving DecidableEq, Repr

/-- Lookup of a key in an association list (Python `d[k]` / `d.get(k)`). -/
def dlookup {β : Type} (k : String) : List (String × β) → Option β
  | [] => none
  | p :: rest => if p.1 = k then some p.2 else dlookup k rest

/-- Keys of an association list, in order (Python `d.keys()`). -/
def dkeys {β : Type} (d : List (String × β)) : List String :=
  d.map Prod.fst

/-- Python `d[k] = v`: replace the value in place if `k` is present,
append `(k, v)` otherwise. -/
def dictInsert {β : Type} (d : List (String × β)) (k : String) (v : β) :
    List (String × β) :=
  if (dlookup k d).isSome then
    d.map (fun p => if p.1 = k then (k, v) else p)
  else
    d ++ [(k, v)]

/-- Python `d1 |= d2`: insert every pair of `d2` into `d1`, left to right. -/
def dunion {β : Type} (d1 d2 : List (String × β)) : List (String × β) :=
  d2.foldl (fun acc p => dictInsert acc p.1 p.2) d1

theorem dlookup_append {β : Type} (d1 d2 : List (String × β)) (k : String) :
    dlookup k (d1 ++ d2) =
      match dlookup k d1 with
      | some v => some v
      | none => dlookup k d2 := by
  induction d1 with
  | nil => simp [dlookup]
  | cons p rest ih =>
    by_cases hp : p.1 = k <;> simp [dlookup, hp, ih]

theorem dlookup_replace {β : Type} (d : List (String × β)) (k k' : String) (v : β) :
    dlookup k' (d.map (fun p => if p.1 = k then (k, v) else p)) =
      if k' = k then (if (dlookup k d).isSome then some v else none)
      else dlookup k' d := by
  induction d with
  | nil => simp [dlookup]
  | cons p rest ih =>
    by_cases hp : p.1 = k
    · by_cases hk : k' = k
      · simp [dlookup, hp, hk]
      · simp [dlookup, hp, hk, ih, Ne.symm hk]
    · by_cases hk : k' = k
      · subst hk
        simp [dlookup, hp, ih]
      · simp [dlookup, hp, hk, ih]

theorem dlookup_dictInsert {β : Type} (d : List (String × β)) (k : String)
    (v : β) (k' : String) :
    dlookup k' (dictInsert d k v) = if k' = k then some v else dlookup k' d := by
  unfold dictInsert
  by_cases hs : (dlookup k d).isSome
  · rw [if_pos hs, dlookup_replace]
    by_cases hk : k' = k <;> simp [hk, hs]
  · rw [if_neg hs, dlookup_append]
    by_cases hk : k' = k
    · have hnone : dlookup k d = none := by
        cases h : dlookup k d with
        | none => rfl
        | some v' => exact absurd (by simp [h]) hs
      subst hk
      simp [hnone, dlookup]
    · have hk2 : ¬ k = k' := fun hh => hk hh.symm
      cases h : dlookup k' d with
      | none => simp [h, dlookup, hk, hk2]
      | some v' => simp [h, hk]

theorem mem_dkeys_iff_isSome {β : Type} (d : List (String × β)) (k : String) :
    k ∈ dkeys d ↔ (dlookup k d).isSome := by
  induction d with
  | nil => simp [dkeys, dlookup]
  | cons p rest ih =>
    by_cases hp : p.1 = k
    · simp [dkeys, dlookup, hp]
    · simp [dkeys, dlookup, hp, Ne.symm hp, ih]
      rw [← ih]
      simp [dkeys]

theorem dkeys_dictInsert {β : Type} (d : List (String × β)) (k : String) (v : β) :
    dkeys (dictInsert d k v) =
      if (dlookup k d).isSome then dkeys d else dkeys d ++ [k] := by
  unfold dictInsert
  by_cases hs : (dlookup k d).isSome
  · rw [if_pos hs, if_pos hs]
    unfold dkeys
    rw [List.map_map]
    apply List.map_congr_left
    intro p _
    by_cases hp : p.1 = k <;> simp [hp]
  · rw [if_neg hs, if_neg hs]
    simp [dkeys]

theorem mem_dkeys_dictInsert {β : Type} (d : List (String × β)) (k : String)
    (v : β) (k' : String) :
    k' ∈ dkeys (dictInsert d k v) ↔ k' ∈ dkeys d ∨ k' = k := by
  rw [dkeys_dictInsert]
  by_cases hs : (dlookup k d).isSome
  · rw [if_pos hs]
    constructor
    · exact Or.inl
    · rintro (h | h)
      · exact h
      · subst h; exact (mem_dkeys_iff_isSome d k').mpr hs
  · rw [if_neg hs]
    simp

theorem dkeys_nodup_dictInsert {β : Type} (d : List (String × β)) (k : String)
    (v : β) (h : (dkeys d).Nodup) : (dkeys (dictInsert d k v)).Nodup := by
  rw [dkeys_dictInsert]
  by_cases hs : (dlookup k d).isSome
  · rw [if_pos hs]; exact h
  · rw [if_neg hs]
    have hnm : k ∉ dkeys d := by
      rw [mem_dkeys_iff_isSome]; exact hs
    simp [List.nodup_append, h, hnm]

theorem dlookup_eq_none_of_not_mem {β : Type} (d : List (String × β))
    (k : String) (h : k ∉ dkeys d) : dlookup k d = none := by
  cases hh : dlookup k d with
  | none => rfl
  | some v =>
    exact absurd ((mem_dkeys_iff_isSome d k).mpr (by simp [hh])) h

theorem dunion_cons {β : Type} (d1 : List (String × β)) (p : String × β)
    (d2 : List (String × β)) :
    dunion d1 (p :: d2) = dunion (dictInsert d1 p.1 p.2) d2 := rfl

theorem dlookup_dunion {β : Type} (d2 : List (String × β))
    (h : (dkeys d2).Nodup) (d1 : List (String × β)) (k : String) :
    dlookup k (dunion d1 d2) =
      match dlookup k d2 with
      | some v => some v
      | none => dlookup k d1 := by
  induction d2 generalizing d1 with
  | nil => simp [dunion, dlookup]
  | cons p rest ih =>
    have hnm : p.1 ∉ dkeys rest := by
      intro hm
      exact (List.nodup_cons.mp (by simpa [dkeys] using h)).1 hm
    have hrest : (dkeys rest).Nodup :=
      (List.nodup_cons.mp (by simpa [dkeys] using h)).2
    rw [dunion_cons, ih hrest]
    by_cases hk : p.1 = k
    · subst hk
      rw [dlookup_eq_none_of_not_mem rest p.1 hnm]
      simp [dlookup, dlookup_dictInsert]
    · cases hr : dlookup k rest with
      | none => simp [hr, dlookup, hk, dlookup_dictInsert, Ne.symm hk]
      | some v => simp [hr, dlookup, hk]

theorem mem_dkeys_dunion {β : Type} (d2 d1 : List (String × β)) (k : String) :
    k ∈ dkeys (dunion d1 d2) ↔ k ∈ dkeys d1 ∨ k ∈ dkeys d2 := by
  induction d2 generalizing d1 with
  | nil => simp [dunion, dkeys]
  | cons p rest ih =>
    rw [dunion_cons, ih]
    rw [mem_dkeys_dictInsert]
    constructor
    · rintro ((h | h) | h)
      · exact Or.inl h
      · exact Or.inr (by simp [dkeys, h])
      · exact Or.inr (by simp [dkeys] at h ⊢; exact Or.inr h)
    · rintro (h | h)
      · exact Or.inl (Or.inl h)
      · simp [dkeys] at h
        rcases h with h | h
        · exact Or.inl (Or.inr h)
        · exact Or.inr (by simpa [dkeys] using h)

theorem dkeys_nodup_dunion {β : Type} (d2 d1 : List (String × β))
    (h : (dkeys d1).Nodup) : (dkeys (dunion d1 d2)).Nodup := by
  induction d2 generalizing d1 with
  | nil => exact h
  | cons p rest ih =>
    rw [dunion_cons]
    exact ih _ (dkeys_nodup_dictInsert d1 p.1 p.2 h)

/-! ### Task entity: `TaskEntity.load` (openpype/entities/task.py)

The SQL query selects exactly fourteen columns from `tasks` left-joined with
`exported_attributes` (aliased `inherited_attrib`).  A database record is
embedded as an association list from column name to a column value, and
`record["c"]` as a lookup that raises `KeyError` when the column was not
selected, as asyncpg does. -/

/-- An attribute bag: a JSON object column. -/
abbrev Dict : Type := List (String × AttrVal)

/-- A value held in one column of a fetched database record. -/
inductive ColVal : Type
  | cnull
  | cstr (s : String)
  | cbool (b : Bool)
  | clist (xs : List String)
  | cdict (d : Dict)
deriving DecidableEq, Repr

/-- A fetched database record: columns in `SELECT` order. -/
abbrev Record : Type := List (String × ColVal)

/-- Python `record["col"]`: `KeyError` when the column is absent. -/
inductive LoadErr : Type
  | keyError (col : String)
  | typeError
deriving DecidableEq, Repr

/-- Column access on a record (`record["col"]`). -/
def recordGet (r : Record) (col : String) : Except LoadErr ColVal :=
  match dlookup col r with
  | some v => Except.ok v
  | none => Except.error (LoadErr.keyError col)

/-- The values of a row of `project_*.tasks` joined with
`exported_attributes`; `inherited_attrib` is `NULL` exactly when the folder
has no closure row. -/
structure TaskRowData : Type where
  id : String
  name : String
  label : Option String
  task_type : Option String
  assignees : List String
  folder_id : String
  attrib : Dict
  data : Dict
  active : Bool
  created_at : String
  updated_at : String
  status : String
  tags : List String
  inherited_attrib : Option Dict
deriving DecidableEq, Repr

/-- An optional text column. -/
def optStrCol : Option String → ColVal
  | none => ColVal.cnull
  | some s => ColVal.cstr s

/-- The record produced by the `TaskEntity.load` query: exactly the fourteen
selected columns, in `SELECT` order.  Note that `parent_id` is not among
them. -/
def mkTaskRecord (d : TaskRowData) : Record :=
  [("id", ColVal.cstr d.id),
   ("name", ColVal.cstr d.name),
   ("label", optStrCol d.label),
   ("task_type", optStrCol d.task_type),
   ("assignees", ColVal.clist d.assignees),
   ("folder_id", ColVal.cstr d.folder_id),
   ("attrib", ColVal.cdict d.attrib),
   ("data", ColVal.cdict d.data),
   ("active", ColVal.cbool d.active),
   ("created_at", ColVal.cstr d.created_at),
   ("updated_at", ColVal.cstr d.updated_at),
   ("status", ColVal.cstr d.status),
   ("tags", ColVal.clist d.tags),
   ("inherited_attrib",
     match d.inherited_attrib with
     | none => ColVal.cnull
     | some ia => ColVal.cdict ia)]

/-- What `TaskEntity.load` hands to `from_record` for one row: the merged
attribute bag, the `own_attrib` key list, and whether the missing-closure
warning was logged. -/
structure LoadOk : Type where
  attrib : Dict
  own_attrib : List String
  warned : Bool
deriving DecidableEq, Repr

/-- The per-record body of `TaskEntity.load`:

    attrib = {}
    if (ia := record["inherited_attrib"]) is not None:
        attrib |= ia
    elif record["parent_id"] is not None:
        logging.warning(...)
    attrib |= record["attrib"]
    own_attrib = list(record["attrib"].keys())
-/
def taskLoadFromRecord (record : Record) : Except LoadErr LoadOk := do
  let iaV ← recordGet record "inherited_attrib"
  let step ←
    match iaV with
    | ColVal.cnull => do
        let pV ← recordGet record "parent_id"
        Except.ok ((dunion [] [] : Dict), pV != ColVal.cnull)
    | ColVal.cdict ia => Except.ok ((dunion [] ia : Dict), false)
    | _ => Except.error LoadErr.typeError
  let aV ← recordGet record "attrib"
  match aV with
  | ColVal.cdict a =>
      Except.ok
        { attrib := dunion step.1 a
          own_attrib := a.map Prod.fst
          warned := step.2 }
  | _ => Except.error LoadErr.typeError

/-- Modelled from the spec: the registered attribute defaults are applied by
the generated attribute model during `from_record` validation
(`entities/models/generator.py`, not in src): an attribute absent from the
payload takes its registered default. -/
def effectiveValue (dflt : String → Option AttrVal) (attrib : Dict)
    (a : String) : Option AttrVal :=
  match dlookup a attrib with
  | some v => some v
  | none => dflt a

theorem taskLoad_closure_present (d : TaskRowData) (ia : Dict) :
    taskLoadFromRecord
        (mkTaskRecord { d with inherited_attrib := some ia }) =
      Except.ok
        { attrib := dunion (dunion [] ia) d.attrib
          own_attrib := d.attrib.map Prod.fst
          warned := false } := rfl

theorem taskLoad_present_of (d : TaskRowData) (ia : Dict)
    (h : d.inherited_attrib = some ia) :
    taskLoadFromRecord (mkTaskRecord d) =
      Except.ok
        { attrib := dunion (dunion [] ia) d.attrib
          own_attrib := d.attrib.map Prod.fst
          warned := false } := by
  cases d
  cases h
  rfl

theorem taskLoad_absent_of (d : TaskRowData)
    (h : d.inherited_attrib = none) :
    taskLoadFromRecord (mkTaskRecord d) =
      Except.error (LoadErr.keyError "parent_id") := by
  cases d
  cases h
  rfl

/-- Concrete task row used to instantiate the load theorems: one own
attribute `frameStart = 1050`, folder closure initially absent. -/
def sampleRow : TaskRowData :=
  { id := "t1"
    name := "compose"
    label := none
    task_type := some "Generic"
    assignees := ["artist1"]
    folder_id := "f1"
    attrib := [("frameStart", AttrVal.avInt 1050)]
    data := []
    active := true
    created_at := "2023-01-01"
    updated_at := "2023-01-02"
    status := "In progress"
    tags := []
    inherited_attrib := none }

/-- Concrete folder closure: inherited `frameStart` and `fps`. -/
def sampleClosure : Dict :=
  [("frameStart", AttrVal.avInt 1001), ("fps", AttrVal.avInt 25)]

/-- Concrete registered defaults: only `resolutionWidth` has one. -/
def sampleDefaults : String → Option AttrVal := fun a =>
  if a = "resolutionWidth" then some (AttrVal.avInt 1920) else none

/-- The sample row as returned when the folder's closure row exists. -/
def sampleRowWithClosure : TaskRowData :=
  { sampleRow with inherited_attrib := some sampleClosure }

/-- C1: a task loaded via `TaskEntity.load` resolves each attribute by the
three-step precedence: its own stored value if the name is a key of the
stored `attrib` column, else the folder closure's value if present there,
else the registered default; in particular the entity's own value wins over
the inherited one. -/
theorem C1_task_load_precedence (d : TaskRowData) (ia : Dict)
    (dflt : String → Option AttrVal) (a : String)
    (h1 : (dkeys ia).Nodup) (h2 : (dkeys d.attrib).Nodup) :
    taskLoadFromRecord
        (mkTaskRecord { d with inherited_attrib := some ia }) =
      Except.ok
        { attrib := dunion (dunion [] ia) d.attrib
          own_attrib := dkeys d.attrib
          warned := false } ∧
    effectiveValue dflt (dunion (dunion [] ia) d.attrib) a =
      match dlookup a d.attrib with
      | some v => some v
      | none =>
        match dlookup a ia with
        | some v => some v
        | none => dflt a := by
  refine ⟨taskLoad_closure_present d ia, ?_⟩
  unfold effectiveValue
  rw [dlookup_dunion d.attrib h2, dlookup_dunion ia h1]
  cases dlookup a d.attrib with
  | none =>
    cases dlookup a ia with
    | none => simp [dlookup]
    | some v => simp
  | some v => simp

/-- C1 witness: with the sample row and closure, the own `frameStart = 1050`
wins over the inherited `1001`. -/
theorem C1_task_load_precedence_witness :
    taskLoadFromRecord
        (mkTaskRecord { sampleRow with inherited_attrib := some sampleClosure }) =
      Except.ok
        { attrib := dunion (dunion [] sampleClosure) sampleRow.attrib
          own_attrib := dkeys sampleRow.attrib
          warned := false } ∧
    effectiveValue sampleDefaults
        (dunion (dunion [] sampleClosure) sampleRow.attrib) "frameStart" =
      match dlookup "frameStart" sampleRow.attrib with
      | some v => some v
      | none =>
        match dlookup "frameStart" sampleClosure with
        | some v => some v
        | none => sampleDefaults "frameStart" :=
  C1_task_load_precedence sampleRow sampleClosure sampleDefaults "frameStart"
    (by decide) (by decide)

/-- C2: the claim says that when the folder has no closure row
(`inherited_attrib` is `NULL`) `load` succeeds with a warning; the code
instead evaluates `record["parent_id"]`, a column the query never selects,
so the load raises `KeyError("parent_id")` for every such row. -/
theorem C2_missing_closure_raises_keyerror (d : TaskRowData) :
    taskLoadFromRecord (mkTaskRecord { d with inherited_attrib := none }) =
      Except.error (LoadErr.keyError "parent_id") := by
  exact taskLoad_absent_of { d with inherited_attrib := none } rfl

/-- C4: for every record the load returns, `own_attrib` is exactly the key
list of the stored row's `attrib` column, and is a subset of the keys of the
merged effective attribute bag. -/
theorem C4_own_exact_and_subset (d : TaskRowData) (out : LoadOk)
    (h : taskLoadFromRecord (mkTaskRecord d) = Except.ok out) :
    out.own_attrib = dkeys d.attrib ∧ out.own_attrib ⊆ dkeys out.attrib := by
  cases hia : d.inherited_attrib with
  | none =>
    rw [taskLoad_absent_of d hia] at h
    exact absurd h (by simp)
  | some ia =>
    rw [taskLoad_present_of d ia hia] at h
    injection h with h'
    subst h'
    refine ⟨rfl, ?_⟩
    intro k hk
    rw [mem_dkeys_dunion]
    exact Or.inr hk

/-- C4 witness: the sample row with its closure present. -/
theorem C4_own_exact_and_subset_witness :
    ({ attrib := dunion (dunion [] sampleClosure) sampleRow.attrib
       own_attrib := sampleRow.attrib.map Prod.fst
       warned := false } : LoadOk).own_attrib = dkeys sampleRowWithClosure.attrib ∧
    ({ attrib := dunion (dunion [] sampleClosure) sampleRow.attrib
       own_attrib := sampleRow.attrib.map Prod.fst
       warned := false } : LoadOk).own_attrib ⊆
      dkeys ({ attrib := dunion (dunion [] sampleClosure) sampleRow.attrib
               own_attrib := sampleRow.attrib.map Prod.fst
               warned := false } : LoadOk).attrib :=
  C4_own_exact_and_subset sampleRowWithClosure
    { attrib := dunion (dunion [] sampleClosure) sampleRow.attrib
      own_attrib := sampleRow.attrib.map Prod.fst
      warned := false } (by rfl)

/-! ### Task entity: `TaskEntity.save` and the `label` property -/

/-- A row of `project_*.task_types`. -/
structure TaskTypeRow : Type where
  name : String
  position : Int
deriving DecidableEq, Repr

/-- `SELECT name FROM task_types ORDER BY position ASC LIMIT 1`: the row
with the least position (the earlier row on ties). -/
def firstByPosition : List TaskTypeRow → Option TaskTypeRow
  | [] => none
  | r :: rs =>
    match firstByPosition rs with
    | none => some r
    | some m => some (if m.position < r.position then m else r)

/-- The fields of a task instance touched by `TaskEntity.save`: the real
`task_type` payload column, and the `folder_type` attribute the defaulting
branch assigns. -/
structure TaskSaveState : Type where
  task_type : Option String
  folder_type : Option String
deriving DecidableEq, Repr

/-- `OpenPypeException("No task types defined")`. -/
inductive SaveErr : Type
  | noTaskTypes
deriving DecidableEq, Repr

/-- `TaskEntity.save`: when `task_type` is unset, fetch the first configured
task type ordered by position; raise when none exist; otherwise assign the
fetched name to `self.folder_type` — the source assigns `folder_type`, not
`task_type`. -/
def taskSave (s : TaskSaveState) (taskTypes : List TaskTypeRow) :
    Except SaveErr TaskSaveState :=
  match s.task_type with
  | none =>
    match firstByPosition taskTypes with
    | none => Except.error SaveErr.noTaskTypes
    | some r => Except.ok { s with folder_type := some r.name }
  | some _ => Except.ok s

/-- C3: with task types `Generic` (position 0) and `Modeling` (position 1),
saving a task with `task_type` unset leaves `task_type` still unset and
instead writes `"Generic"` into `folder_type`; with no task types configured
the save raises the domain error. -/
theorem C3_save_assigns_folder_type :
    taskSave { task_type := none, folder_type := none }
        [{ name := "Generic", position := 0 },
         { name := "Modeling", position := 1 }] =
      Except.ok { task_type := none, folder_type := some "Generic" } ∧
    taskSave { task_type := none, folder_type := none } [] =
      Except.error SaveErr.noTaskTypes :=
  ⟨rfl, rfl⟩

/-- Python truthiness for `x or y` on an optional string: `None` and the
empty string are falsy. -/
def pyOr (v : Option String) (dflt : String) : String :=
  match v with
  | none => dflt
  | some s => if s = "" then dflt else s

/-- The `TaskEntity.label` getter, fuel-bounded: the body
`return self.label or self.name` first re-invokes the very same property
(a property is a data descriptor, so `self.label` always resolves to it);
`none` means the recursion exhausted the fuel without producing a value. -/
def labelGetFuel (name : String) : Nat → Option String
  | 0 => none
  | fuel + 1 =>
    match labelGetFuel name fuel with
    | none => none
    | some v => some (pyOr (some v) name)

/-- The `TaskEntity.label` setter, fuel-bounded: the body
`self.label = value` re-invokes the very same setter before doing anything
else. -/
def labelSetFuel (value : Option String) : Nat → Option Unit
  | 0 => none
  | fuel + 1 => labelSetFuel value fuel

/-- C9: the `label` property reads and assigns through its own name, so an
actual invocation of the getter or the setter never terminates: for every
fuel bound, both exhaust the fuel without producing a value. -/
theorem C9_label_property_diverges (name : String) (value : Option String)
    (fuel : Nat) :
    labelGetFuel name fuel = none ∧ labelSetFuel value fuel = none := by
  induction fuel with
  | zero => exact ⟨rfl, rfl⟩
  | succ n ih =>
    refine ⟨?_, ih.2⟩
    show (match labelGetFuel name n with
          | none => none
          | some v => some (pyOr (some v) name)) = none
    rw [ih.1]

/-! ### Schema model set (ayon_server/entities/models/__init__.py)

A field spec keeps the keys of the Python field dicts that the create/patch
generation inspects: `name`, `required` (absent means optional), `dynamic`
(absent means false) and the attribute submodel reference. -/

/-- One entry of a field list. -/
structure FieldSpec : Type where
  name : String
  required : Bool := false
  dynamic : Bool := false
  submodel : Option String := none
deriving DecidableEq, Repr

/-- `ModelSet._common_fields`: attrib (with the attribute submodel), data,
active, and the dynamic `own_attrib`. -/
def common_fields (entity_name : String) : List FieldSpec :=
  [{ name := "attrib", required := false,
     submodel := some (entity_name.capitalize ++ "AttribModel") },
   { name := "data" },
   { name := "active" },
   { name := "own_attrib", dynamic := true }]

/-- `ModelSet._project_level_fields`: empty for project and user, otherwise
status and tags. -/
def project_level_fields (entity_name : String) : List FieldSpec :=
  if entity_name = "project" ∨ entity_name = "user" then []
  else [{ name := "status", required := false }, { name := "tags" }]

/-- The field list `ModelSet._generate_post_model` feeds to the generator:
`fields + _project_level_fields + _common_fields` minus dynamic fields. -/
def post_fields (entity_name : String) (fieldList : List FieldSpec) :
    List FieldSpec :=
  (fieldList ++ project_level_fields entity_name ++
    common_fields entity_name).filter (fun f => !f.dynamic)

/-- The field list `ModelSet._generate_patch_model` feeds to the generator:
the same source list, skipping dynamic fields and forcing each surviving
(deep-copied) field optional. -/
def patch_fields (entity_name : String) (fieldList : List FieldSpec) :
    List FieldSpec :=
  (fieldList ++ project_level_fields entity_name ++
    common_fields entity_name).filterMap
    (fun f => if f.dynamic then none else some { f with required := false })

theorem mem_project_level_fields (e : String) (f : FieldSpec)
    (h : f ∈ project_level_fields e) : f.name = "status" ∨ f.name = "tags" := by
  unfold project_level_fields at h
  split at h
  · exact absurd h (List.not_mem_nil f)
  · simp only [List.mem_cons, List.not_mem_nil, or_false] at h
    rcases h with h | h <;> subst h
    · left; rfl
    · right; rfl

theorem mem_common_fields_name (e : String) (f : FieldSpec)
    (h : f ∈ common_fields e) :
    f.name = "attrib" ∨ f.name = "data" ∨ f.name = "active" ∨
      f.name = "own_attrib" := by
  simp only [common_fields, List.mem_cons, List.not_mem_nil, or_false] at h
  rcases h with h | h | h | h <;> subst h
  · left; rfl
  · right; left; rfl
  · right; right; left; rfl
  · right; right; right; rfl

theorem common_own_attrib_dynamic (e : String) (f : FieldSpec)
    (h : f ∈ common_fields e) (hn : f.name = "own_attrib") :
    f.dynamic = true := by
  simp only [common_fields, List.mem_cons, List.not_mem_nil, or_false] at h
  rcases h with h | h | h | h <;> subst h
  · exact absurd hn (by simp)
  · exact absurd hn (by decide)
  · exact absurd hn (by decide)
  · rfl

/-- C5 counterexample: for the `user` entity type (whose field list is
empty in `FIELD_LISTS`), the generated create shape does contain the
attribute bag, the auxiliary data field and the active flag. -/
theorem C5_counterexample :
    "attrib" ∈ (post_fields "user" []).map FieldSpec.name ∧
    "data" ∈ (post_fields "user" []).map FieldSpec.name ∧
    "active" ∈ (post_fields "user" []).map FieldSpec.name := by
  decide

/-- C5 (amended): for every entity type, the create shape excludes the
identifier field, `own_attrib`, and every field marked dynamic, while the
attribute bag, the auxiliary data field and the active flag remain present;
every field of the create shape is one of the source field specs unchanged
(so required/optional flags are preserved). -/
theorem C5_amended_create_shape (e : String) (fs : List FieldSpec)
    (hid : "id" ∉ fs.map FieldSpec.name)
    (hown : "own_attrib" ∉ fs.map FieldSpec.name) :
    "id" ∉ (post_fields e fs).map FieldSpec.name ∧
    "own_attrib" ∉ (post_fields e fs).map FieldSpec.name ∧
    (∀ f ∈ post_fields e fs, f.dynamic = false) ∧
    "attrib" ∈ (post_fields e fs).map FieldSpec.name ∧
    "data" ∈ (post_fields e fs).map FieldSpec.name ∧
    "active" ∈ (post_fields e fs).map FieldSpec.name ∧
    ∀ f ∈ post_fields e fs,
      f ∈ fs ++ project_level_fields e ++ common_fields e := by
  refine ⟨?_, ?_, ?_, ?_, ?_, ?_, ?_⟩
  · intro hmem
    rw [List.mem_map] at hmem
    obtain ⟨f, hf, hname⟩ := hmem
    rw [post_fields, List.mem_filter] at hf
    rcases List.mem_append.mp hf.1 with hf1 | hf1
    · rcases List.mem_append.mp hf1 with hf2 | hf2
      · exact hid (List.mem_map.mpr ⟨f, hf2, hname⟩)
      · rcases mem_project_level_fields e f hf2 with h | h <;>
          (rw [h] at hname; exact absurd hname (by decide))
    · rcases mem_common_fields_name e f hf1 with h | h | h | h <;>
        (rw [h] at hname; exact absurd hname (by decide))
  · intro hmem
    rw [List.mem_map] at hmem
    obtain ⟨f, hf, hname⟩ := hmem
    rw [post_fields, List.mem_filter] at hf
    rcases List.mem_append.mp hf.1 with hf1 | hf1
    · rcases List.mem_append.mp hf1 with hf2 | hf2
      · exact hown (List.mem_map.mpr ⟨f, hf2, hname⟩)
      · rcases mem_project_level_fields e f hf2 with h | h <;>
          (rw [h] at hname; exact absurd hname (by decide))
    · rcases mem_common_fields_name e f hf1 with h | h | h | h
      · rw [h] at hname; exact absurd hname (by decide)
      · rw [h] at hname; exact absurd hname (by decide)
      · rw [h] at hname; exact absurd hname (by decide)
      · have hd := common_own_attrib_dynamic e f hf1 h
        rw [hd] at hf
        exact absurd hf.2 (by decide)
  · intro f hf
    rw [post_fields, List.mem_filter] at hf
    simpa using hf.2
  · refine List.mem_map.mpr
      ⟨{ name := "attrib", required := false,
         submodel := some (e.capitalize ++ "AttribModel") }, ?_, rfl⟩
    rw [post_fields, List.mem_filter]
    refine ⟨List.mem_append.mpr (Or.inr ?_), rfl⟩
    simp [common_fields]
  · refine List.mem_map.mpr ⟨{ name := "data" }, ?_, rfl⟩
    rw [post_fields, List.mem_filter]
    refine ⟨List.mem_append.mpr (Or.inr ?_), by decide⟩
    simp [common_fields]
  · refine List.mem_map.mpr ⟨{ name := "active" }, ?_, rfl⟩
    rw [post_fields, List.mem_filter]
    refine ⟨List.mem_append.mpr (Or.inr ?_), by decide⟩
    simp [common_fields]
  · intro f hf
    rw [post_fields, List.mem_filter] at hf
    exact hf.1

/-- C5 witness: the `user` entity type with its (empty) field list. -/
theorem C5_amended_create_shape_witness :
    "id" ∉ (post_fields "user" []).map FieldSpec.name ∧
    "own_attrib" ∉ (post_fields "user" []).map FieldSpec.name ∧
    (∀ f ∈ post_fields "user" [], f.dynamic = false) ∧
    "attrib" ∈ (post_fields "user" []).map FieldSpec.name ∧
    "data" ∈ (post_fields "user" []).map FieldSpec.name ∧
    "active" ∈ (post_fields "user" []).map FieldSpec.name ∧
    ∀ f ∈ post_fields "user" [],
      f ∈ ([] : List FieldSpec) ++ project_level_fields "user" ++
        common_fields "user" :=
  C5_amended_create_shape "user" [] (by decide) (by decide)

theorem patch_names_eq_post_names (l : List FieldSpec) :
    (l.filterMap
        (fun f => if f.dynamic then none
                  else some { f with required := false })).map FieldSpec.name =
      (l.filter (fun f => !f.dynamic)).map FieldSpec.name := by
  induction l with
  | nil => rfl
  | cons f rest ih =>
    by_cases hd : f.dynamic = true <;>
      simp [List.filterMap_cons, List.filter_cons, hd, ih]

theorem patch_all_optional (l : List FieldSpec) :
    (l.filterMap
        (fun f => if f.dynamic then none
                  else some { f with required := false })).all
      (fun f => !f.required) = true := by
  induction l with
  | nil => rfl
  | cons f rest ih =>
    by_cases hd : f.dynamic = true <;>
      simp [List.filterMap_cons, hd, ih]

/-- C6: for every entity type and field list, the patch shape has exactly
the same field names, in the same order, as the create shape, and every
field of the patch shape is optional. -/
theorem C6_patch_shape (e : String) (fs : List FieldSpec) :
    (patch_fields e fs).map FieldSpec.name =
      (post_fields e fs).map FieldSpec.name ∧
    (patch_fields e fs).all (fun f => !f.required) = true := by
  refine ⟨?_, ?_⟩
  · rw [patch_fields, post_fields]
    exact patch_names_eq_post_names _
  · rw [patch_fields]
    exact patch_all_optional _

/-! ### ModelSet caching (C7)

`generate_model` itself lives in `entities/models/generator.py`, which is
not part of src; the spec describes it as a pure deterministic function, so
it is modelled as a schema value packaging its inputs. -/

/-- Modelled from the spec: the schema value produced by `generate_model`
(`entities/models/generator.py`, not in src) — a pure, deterministic
function of the model name and the field list. -/
structure Schema : Type where
  modelName : String
  schemaFields : List FieldSpec
deriving DecidableEq, Repr

/-- Modelled from the spec: `generate_model(name, fields, config)` as a pure
constructor. -/
def generate_model (modelName : String) (fieldList : List FieldSpec) :
    Schema :=
  { modelName := modelName, schemaFields := fieldList }

/-- The mutable state of a `ModelSet` instance: its construction arguments
plus the four lazily-filled caches. -/
structure ModelSetState : Type where
  entity_name : String
  msFields : List FieldSpec
  attributes : List FieldSpec
  hasId : Bool
  cachedModel : Option Schema
  cachedPost : Option Schema
  cachedPatch : Option Schema
  cachedAttrib : Option Schema
deriving DecidableEq, Repr

/-- `_generate_entity_model`'s pre-fields: the id field, or the name natural
key when the entity type has no surrogate id. -/
def pre_fields (hasId : Bool) : List FieldSpec :=
  if hasId then [{ name := "id" }] else [{ name := "name", required := true }]

/-- `_generate_entity_model`'s trailing timestamp fields. -/
def timestamp_fields : List FieldSpec :=
  [{ name := "created_at" }, { name := "updated_at" }]

/-- The field list of the full entity model:
`pre_fields + fields + _common_fields + _project_level_fields + post_fields`. -/
def entity_model_fields (e : String) (hasId : Bool)
    (fieldList : List FieldSpec) : List FieldSpec :=
  pre_fields hasId ++ fieldList ++ common_fields e ++
    project_level_fields e ++ timestamp_fields

/-- The `attrib_model` property: return the cache when filled, otherwise
generate, store and return; the `Nat` counts `generate_model` invocations. -/
def attrib_model (s : ModelSetState) : Schema × ModelSetState × Nat :=
  match s.cachedAttrib with
  | some m => (m, s, 0)
  | none =>
    let m := generate_model (s.entity_name.capitalize ++ "AttribModel")
      s.attributes
    (m, { s with cachedAttrib := some m }, 1)

/-- The `main_model` property; generating it renders `_common_fields`, which
touches the `attrib_model` property and thereby may fill that cache too. -/
def main_model (s : ModelSetState) : Schema × ModelSetState × Nat :=
  match s.cachedModel with
  | some m => (m, s, 0)
  | none =>
    let r := attrib_model s
    let m := generate_model (s.entity_name.capitalize ++ "Model")
      (entity_model_fields s.entity_name s.hasId s.msFields)
    (m, { r.2.1 with cachedModel := some m }, r.2.2 + 1)

/-- The `post_model` property. -/
def post_model (s : ModelSetState) : Schema × ModelSetState × Nat :=
  match s.cachedPost with
  | some m => (m, s, 0)
  | none =>
    let r := attrib_model s
    let m := generate_model (s.entity_name.capitalize ++ "PostModel")
      (post_fields s.entity_name s.msFields)
    (m, { r.2.1 with cachedPost := some m }, r.2.2 + 1)

/-- The `patch_model` property. -/
def patch_model (s : ModelSetState) : Schema × ModelSetState × Nat :=
  match s.cachedPatch with
  | some m => (m, s, 0)
  | none =>
    let r := attrib_model s
    let m := generate_model (s.entity_name.capitalize ++ "PatchModel")
      (patch_fields s.entity_name s.msFields)
    (m, { r.2.1 with cachedPatch := some m }, r.2.2 + 1)

/-- C7: for every model-set state, accessing any of the four model
properties a second time returns the very schema cached by the first access,
leaves the state unchanged, and performs zero `generate_model` invocations;
and the first generation of each model is exactly `generate_model` applied
to the entity's inputs (so regeneration is structurally equal). -/
theorem C7_model_caching (s : ModelSetState) :
    attrib_model (attrib_model s).2.1 =
      ((attrib_model s).1, (attrib_model s).2.1, 0) ∧
    main_model (main_model s).2.1 =
      ((main_model s).1, (main_model s).2.1, 0) ∧
    post_model (post_model s).2.1 =
      ((post_model s).1, (post_model s).2.1, 0) ∧
    patch_model (patch_model s).2.1 =
      ((patch_model s).1, (patch_model s).2.1, 0) ∧
    (attrib_model { s with cachedAttrib := none }).1 =
      generate_model (s.entity_name.capitalize ++ "AttribModel")
        s.attributes ∧
    (main_model { s with cachedModel := none }).1 =
      generate_model (s.entity_name.capitalize ++ "Model")
        (entity_model_fields s.entity_name s.hasId s.msFields) ∧
    (post_model { s with cachedPost := none }).1 =
      generate_model (s.entity_name.capitalize ++ "PostModel")
        (post_fields s.entity_name s.msFields) ∧
    (patch_model { s with cachedPatch := none }).1 =
      generate_model (s.entity_name.capitalize ++ "PatchModel")
        (patch_fields s.entity_name s.msFields) := by
  obtain ⟨e, fs, ats, hid, cm, cpo, cpa, ca⟩ := s
  refine ⟨?_, ?_, ?_, ?_, ?_, ?_, ?_, ?_⟩ <;>
    cases cm <;> cases cpo <;> cases cpa <;> cases ca <;> rfl

/-! ### Anatomy-to-project transform (ayon_server/helpers/deploy_project.py)

The `Anatomy` settings class (`ayon_server/settings/anatomy.py`) is not part
of src; its shape is modelled from the spec as the inputs the transform
reads: task/folder types, statuses, tags, root definitions, naming
templates and attribute defaults. -/

/-- One root definition of an anatomy template. -/
structure RootDef : Type where
  name : String
  windows : String
  linux : String
  darwin : String
deriving DecidableEq, Repr

/-- The per-platform path entry stored under one root name. -/
structure RootPaths : Type where
  windows : String
  linux : String
  darwin : String
deriving DecidableEq, Repr

/-- A named naming-template: its `name` key plus the remaining keys. -/
structure NamedTemplate : Type where
  name : String
  tdata : List (String × String)
deriving DecidableEq, Repr

/-- Modelled from the spec: the `anatomy.templates` settings object
(`ayon_server/settings/anatomy.py`, not in src) — common naming values plus
the five template groups. -/
structure AnatomyTemplates : Type where
  version_padding : Int
  version : String
  frame_padding : Int
  frame : String
  work : List NamedTemplate
  publish : List NamedTemplate
  hero : List NamedTemplate
  delivery : List NamedTemplate
  others : List NamedTemplate
deriving DecidableEq, Repr

/-- Modelled from the spec: the `Anatomy` project template configuration
(`ayon_server/settings/anatomy.py`, not in src): task types, folder types,
statuses, tags, path-template roots, naming templates and attribute
defaults; the `*.dict()` payloads are kept as dictionaries. -/
structure Anatomy : Type where
  task_types : List (List (String × String))
  folder_types : List (List (String × String))
  statuses : List (List (String × String))
  tags : List (List (String × String))
  roots : List RootDef
  templates : AnatomyTemplates
  attributes : List (String × AttrVal)
deriving DecidableEq, Repr

/-- One value of the produced `config["templates"]` mapping. -/
inductive TemplateSection : Type
  | common (version_padding : Int) (version : String) (frame_padding : Int)
      (frame : String)
  | group (entries : List (String × List (String × String)))
deriving DecidableEq, Repr

/-- The produced project `config` payload. -/
structure ProjectConfig : Type where
  roots : List (String × RootPaths)
  templates : List (String × TemplateSection)
deriving DecidableEq, Repr

/-- The payload `anatomy_to_project_data` returns. -/
structure ProjectData : Type where
  task_types : List (List (String × String))
  folder_types : List (List (String × String))
  statuses : List (List (String × String))
  tags : List (List (String × String))
  attrib : List (String × AttrVal)
  config : ProjectConfig
deriving DecidableEq, Repr

/-- `anatomy.templates.dict().get(template_type, [])`. -/
def templateGroup (t : AnatomyTemplates) : String → List NamedTemplate
  | "work" => t.work
  | "publish" => t.publish
  | "hero" => t.hero
  | "delivery" => t.delivery
  | "others" => t.others
  | _ => []

/-- `{k: template[k] for k in template.keys() if k != "name"}`. -/
def stripName (tpl : NamedTemplate) : List (String × String) :=
  (("name", tpl.name) :: tpl.tdata).filter (fun p => p.1 != "name")

/-- The inner loop filling `config["templates"][template_type]`. -/
def groupConfig (grp : List NamedTemplate) :
    List (String × List (String × String)) :=
  grp.foldl (fun acc tpl => dictInsert acc tpl.name (stripName tpl)) []

/-- The `config["templates"]` build: start from the `common` entry, then for
each of the five template types insert its group unless it is empty. -/
def templatesConfig (t : AnatomyTemplates) :
    List (String × TemplateSection) :=
  ["work", "publish", "hero", "delivery", "others"].foldl
    (fun acc ty =>
      let grp := templateGroup t ty
      if grp.isEmpty then acc
      else dictInsert acc ty (TemplateSection.group (groupConfig grp)))
    [("common",
      TemplateSection.common t.version_padding t.version t.frame_padding
        t.frame)]

/-- The `config["roots"]` build: `config["roots"][root.name] = {...}` for
each root in order. -/
def rootsConfig (roots : List RootDef) : List (String × RootPaths) :=
  roots.foldl
    (fun acc root =>
      dictInsert acc root.name
        { windows := root.windows, linux := root.linux,
          darwin := root.darwin })
    []

/-- `anatomy_to_project_data`. -/
def anatomy_to_project_data (anatomy : Anatomy) : ProjectData :=
  { task_types := anatomy.task_types
    folder_types := anatomy.folder_types
    statuses := anatomy.statuses
    tags := anatomy.tags
    attrib := anatomy.attributes
    config :=
      { roots := rootsConfig anatomy.roots
        templates := templatesConfig anatomy.templates } }

theorem rootsConfig_eq_dunion (roots : List RootDef) :
    rootsConfig roots =
      dunion []
        (roots.map (fun r =>
          (r.name,
            ({ windows := r.windows, linux := r.linux,
               darwin := r.darwin } : RootPaths)))) := by
  rw [rootsConfig, dunion, List.foldl_map]

/-- A concrete anatomy template with two root definitions. -/
def sampleAnatomy : Anatomy :=
  { task_types := [[("name", "Generic")], [("name", "Modeling")]]
    folder_types := []
    statuses := [[("name", "In progress")]]
    tags := []
    roots :=
      [{ name := "work", windows := "C:/work", linux := "/mnt/work",
         darwin := "/Volumes/work" },
       { name := "publish", windows := "C:/publish",
         linux := "/mnt/publish", darwin := "/Volumes/publish" }]
    templates :=
      { version_padding := 3
        version := "v"
        frame_padding := 4
        frame := "f"
        work := []
        publish := []
        hero := []
        delivery := []
        others := [] }
    attributes := [("fps", AttrVal.avInt 25)] }

/-- C8: the produced config's `roots` mapping is keyed by root name with
exactly one entry per distinct root name (its key list has no duplicates
and holds exactly the root names); the sample template with the two roots
`work` and `publish` yields exactly those two entries. -/
theorem C8_roots_mapping (a : Anatomy) :
    (dkeys (anatomy_to_project_data a).config.roots).Nodup ∧
    (∀ k, k ∈ dkeys (anatomy_to_project_data a).config.roots ↔
      k ∈ a.roots.map RootDef.name) ∧
    dkeys (anatomy_to_project_data sampleAnatomy).config.roots =
      ["work", "publish"] := by
  have hroots : (anatomy_to_project_data a).config.roots =
      rootsConfig a.roots := rfl
  refine ⟨?_, ?_, rfl⟩
  · rw [hroots, rootsConfig_eq_dunion]
    exact dkeys_nodup_dunion _ [] (by simp [dkeys])
  · intro k
    rw [hroots, rootsConfig_eq_dunion, mem_dkeys_dunion]
    simp [dkeys]

/-! ### Activity references (ayon_server/activities/references.py) -/

/-- One activity reference. -/
structure ActivityReferenceModel : Type where
  entity_type : String
  entity_name : Option String
  entity_id : Option String
  reference_type : String
deriving DecidableEq, Repr

/-- A project-level entity as dispatched over by
`get_references_from_entity`: the two recognized subtypes with the payload
the extractors read, and the remaining project-level kinds. -/
inductive PLEntity : Type
  | task (id : String) (assignees : List String)
  | version (author : Option String) (task_id : Option String)
  | folder (id : String)
  | subset (id : String)
  | representation (id : String)
  | workfile (id : String)
deriving DecidableEq, Repr

/-- Python truthiness of an optional string (`if version.author:`). -/
def pyTruthyStr : Option String → Bool
  | none => false
  | some s => s != ""

/-- `get_references_from_task`: one user-relation reference appended per
assignee, then one version-relation reference appended per version row the
query `SELECT id FROM versions WHERE task_id = $1` yields. -/
def get_references_from_task (assignees : List String)
    (versionRows : List String) : List ActivityReferenceModel :=
  let references : List ActivityReferenceModel := []
  let references := assignees.foldl
    (fun refs assignee => refs ++
      [{ entity_type := "user", entity_name := some assignee,
         entity_id := none, reference_type := "relation" }])
    references
  versionRows.foldl
    (fun refs row => refs ++
      [{ entity_type := "version", entity_name := none,
         entity_id := some row, reference_type := "relation" }])
    references

/-- `get_references_from_version`. -/
def get_references_from_version (author : Option String)
    (task_id : Option String) : List ActivityReferenceModel :=
  let references : List ActivityReferenceModel := []
  let references :=
    if pyTruthyStr author then
      references ++
        [{ entity_type := "user", entity_name := author,
           entity_id := none, reference_type := "relation" }]
    else references
  if pyTruthyStr task_id then
    references ++
      [{ entity_type := "task", entity_name := none,
         entity_id := task_id, reference_type := "relation" }]
  else references

/-- `get_references_from_entity`: isinstance dispatch; `versionsOfTask`
stands for the versions table, mapping a task id to the ids of the versions
linked to it. -/
def get_references_from_entity (entity : PLEntity)
    (versionsOfTask : String → List String) :
    List ActivityReferenceModel :=
  match entity with
  | PLEntity.task i assignees =>
      get_references_from_task assignees (versionsOfTask i)
  | PLEntity.version author task_id =>
      get_references_from_version author task_id
  | _ => []

theorem foldl_append_singleton {α β : Type} (g : α → β) (xs : List α)
    (acc : List β) :
    xs.foldl (fun r x => r ++ [g x]) acc = acc ++ xs.map g := by
  induction xs generalizing acc with
  | nil => simp
  | cons x rest ih => simp [List.foldl_cons, ih]

/-- C10: every project-level entity that is neither a task nor a version
yields no references; a task yields one user-relation reference per
assignee, in assignee order, followed by one version-relation reference per
version linked to the task. -/
theorem C10_reference_dispatch (db : String → List String) (i : String)
    (assignees : List String) :
    get_references_from_entity (PLEntity.folder i) db = [] ∧
    get_references_from_entity (PLEntity.subset i) db = [] ∧
    get_references_from_entity (PLEntity.representation i) db = [] ∧
    get_references_from_entity (PLEntity.workfile i) db = [] ∧
    get_references_from_entity (PLEntity.task i assignees) db =
      assignees.map (fun assignee =>
        { entity_type := "user", entity_name := some assignee,
          entity_id := none, reference_type := "relation" }) ++
      (db i).map (fun row =>
        { entity_type := "version", entity_name := none,
          entity_id := some row, reference_type := "relation" }) := by
  refine ⟨rfl, rfl, rfl, rfl, ?_⟩
  show get_references_from_task assignees (db i) = _
  rw [get_references_from_task]
  rw [foldl_append_singleton, foldl_append_singleton]
  simp

end Ayon
